import Mathlib

/-!
Shallow embedding of the privilege/role/extension reconciliation logic of the
terraform-provider-postgresql sources (helpers.go, the role resource, the
extension resource), together with theorems settling the frozen claims about
the natural-language specification.
-/

namespace PG

/-- The single-quote character (ASCII 39). -/
def squoteC : Char := Char.ofNat 39

/-- The backslash character (ASCII 92). -/
def bslashC : Char := Char.ofNat 92

/-- The double-quote character (ASCII 34). -/
def dquoteC : Char := Char.ofNat 34

/-- The NUL character (ASCII 0). -/
def nulC : Char := Char.ofNat 0

/-- Single quote as a one-character string. -/
def squote : String := String.mk [squoteC]

/-- Backslash as a one-character string. -/
def bslash : String := String.mk [bslashC]

/-- Double quote as a one-character string. -/
def dquote : String := String.mk [dquoteC]

/-- Go `strings.ToUpper` restricted to ASCII, as a kernel-computable map
over the character list. -/
def toUpperGo (s : String) : String := String.mk (s.data.map Char.toUpper)

/-- Go `strings.ToLower` restricted to ASCII, as a kernel-computable map
over the character list. -/
def toLowerGo (s : String) : String := String.mk (s.data.map Char.toLower)

/-- Go `strings.Replace(s, string c, string r, -1)` for a one-character
pattern: every occurrence of `c` is replaced by the sequence `r`. -/
def replaceChar (c : Char) (r : List Char) : List Char → List Char
  | [] => []
  | x :: xs => if x = c then r ++ replaceChar c r xs else x :: replaceChar c r xs

/-- Function `pqQuoteLiteral` from helpers.go: first doubles every backslash, then
doubles every single quote.  The result still needs to be wrapped in single
quotes by the caller. -/
def pqQuoteLiteral (s : String) : String :=
  String.mk (replaceChar squoteC [squoteC, squoteC]
    (replaceChar bslashC [bslashC, bslashC] s.data))

/-- Truncation of a Go string at its first NUL rune, as done by
`pq.QuoteIdentifier`. -/
def takeUntilNul : List Char → List Char
  | [] => []
  | c :: cs => if c = nulC then [] else c :: takeUntilNul cs

/-- Function `pq.QuoteIdentifier` from lib/pq: truncate at the first NUL, double every
embedded double quote, and wrap the result in double quotes. -/
def quoteIdentifier (name : String) : String :=
  dquote ++ String.mk (replaceChar dquoteC [dquoteC, dquoteC] (takeUntilNul name.data)) ++ dquote

/-- Function `sliceContainsStr` from helpers.go. -/
def sliceContainsStr : List String → String → Bool
  | [], _ => false
  | s :: rest, needle => if s = needle then true else sliceContainsStr rest needle

/-- The `allowedPrivileges` map from helpers.go: privileges allowed per object
type.  A missing key is `none`. -/
def allowedPrivileges (objectType : String) : Option (List String) :=
  if objectType = "table" then
    some ["ALL", "SELECT", "INSERT", "UPDATE", "DELETE", "TRUNCATE", "REFERENCES", "TRIGGER"]
  else if objectType = "sequence" then
    some ["ALL", "USAGE", "SELECT", "UPDATE"]
  else none

/-- The loop body of `validatePrivileges`: return the first offending
privilege's error, or success. -/
def checkAllowed (objectType : String) (allowed : List String) :
    List String → Except String Unit
  | [] => Except.ok ()
  | p :: ps =>
    if sliceContainsStr allowed p then checkAllowed objectType allowed ps
    else Except.error (p ++ " is not an allowed privilege for object type " ++ objectType)

/-- Function `validatePrivileges` from helpers.go. -/
def validatePrivileges (objectType : String) (privileges : List String) :
    Except String Unit :=
  match allowedPrivileges objectType with
  | none => Except.error ("unknown object type " ++ objectType)
  | some allowed => checkAllowed objectType allowed privileges

lemma sliceContainsStr_eq_true_iff (l : List String) (s : String) :
    sliceContainsStr l s = true ↔ s ∈ l := by
  induction l with
  | nil => simp [sliceContainsStr]
  | cons a rest ih =>
    simp only [sliceContainsStr]
    by_cases h : a = s
    · subst h; simp
    · rw [if_neg h, ih]
      constructor
      · intro hm
        exact List.mem_cons_of_mem a hm
      · intro hm
        rcases List.mem_cons.mp hm with h1 | h1
        · exact absurd h1.symm h
        · exact h1

lemma checkAllowed_ok_iff (objectType : String) (allowed : List String)
    (ps : List String) :
    checkAllowed objectType allowed ps = Except.ok () ↔ ∀ p ∈ ps, p ∈ allowed := by
  induction ps with
  | nil => simp [checkAllowed]
  | cons p ps ih =>
    simp only [checkAllowed]
    by_cases h : sliceContainsStr allowed p = true
    · rw [if_pos h, ih]
      rw [sliceContainsStr_eq_true_iff] at h
      constructor
      · intro hall q hq
        rcases List.mem_cons.mp hq with h1 | h1
        · exact h1 ▸ h
        · exact hall q h1
      · intro hall q hq
        exact hall q (List.mem_cons_of_mem p hq)
    · rw [if_neg h]
      rw [sliceContainsStr_eq_true_iff] at h
      constructor
      · intro hfalse
        simp at hfalse
      · intro hall
        exact absurd (hall p (List.mem_cons_self p ps)) h

end PG

namespace PG

/-- Abstract statements executed against the role catalog; `render` below maps
each constructor to the exact SQL text the source formats. -/
inductive RoleStmt where
  | rename (oldName newName : String)
  | alter (target clause : String)
  | revoke (granted target : String)
  | grant (granted target : String)
deriving DecidableEq

/-- Rendering of a role statement to the SQL text built by the source
(`ALTER ROLE %s RENAME TO %s`, `ALTER ROLE %s <clause>`, `REVOKE %s FROM %s`,
`GRANT %s TO %s`, identifiers quoted via `pq.QuoteIdentifier`). -/
def renderRoleStmt : RoleStmt → String
  | .rename o n => "ALTER ROLE " ++ quoteIdentifier o ++ " RENAME TO " ++ quoteIdentifier n
  | .alter t c => "ALTER ROLE " ++ quoteIdentifier t ++ " " ++ c
  | .revoke g t => "REVOKE " ++ quoteIdentifier g ++ " FROM " ++ quoteIdentifier t
  | .grant g t => "GRANT " ++ quoteIdentifier g ++ " TO " ++ quoteIdentifier t

/-- Function `revokeRoles` from the role resource: it queries
information_schema.applicable_roles for every role currently granted to the
role and emits one REVOKE per granted role — all of them, with no comparison
against the desired set. -/
def revokeRoles (currentRoles : List String) (role : String) : List RoleStmt :=
  currentRoles.map (fun g => RoleStmt.revoke g role)

/-- Function `grantRoles` from the role resource: one GRANT per desired role — all of
them, with no comparison against the current set. -/
def grantRoles (desiredRoles : List String) (role : String) : List RoleStmt :=
  desiredRoles.map (fun g => RoleStmt.grant g role)

/-- Effect of one statement on the set of roles granted to the target role. -/
def applyStmt (s : Finset String) : RoleStmt → Finset String
  | .revoke g _ => s.erase g
  | .grant g _ => insert g s
  | _ => s

/-- Effect of a statement sequence, applied left to right. -/
def applyStmts (s : Finset String) (l : List RoleStmt) : Finset String :=
  l.foldl applyStmt s

lemma applyStmts_revokeRoles (C : List String) (s : Finset String) (r : String) :
    applyStmts s (revokeRoles C r) = s \ C.toFinset := by
  induction C generalizing s with
  | nil => simp [applyStmts, revokeRoles]
  | cons c C ih =>
    simp only [revokeRoles, List.map_cons, applyStmts, List.foldl_cons] at *
    rw [ih (applyStmt s (RoleStmt.revoke c r))]
    ext x
    simp [applyStmt, Finset.mem_sdiff, Finset.mem_erase]
    tauto

lemma applyStmts_grantRoles (D : List String) (s : Finset String) (r : String) :
    applyStmts s (grantRoles D r) = s ∪ D.toFinset := by
  induction D generalizing s with
  | nil => simp [applyStmts, grantRoles]
  | cons d D ih =>
    simp only [grantRoles, List.map_cons, applyStmts, List.foldl_cons] at *
    rw [ih (applyStmt s (RoleStmt.grant d r))]
    ext x
    simp [applyStmt]

end PG

namespace PG

/-- Character-wise description of what `pqQuoteLiteral` does: every single
quote and every backslash is doubled, every other character is kept. -/
def doubleSpecial : List Char → List Char
  | [] => []
  | c :: cs =>
    if c = squoteC ∨ c = bslashC then c :: c :: doubleSpecial cs
    else c :: doubleSpecial cs

/-- Un-escaping of a doubled-quote/doubled-backslash literal body, as the
server-side literal parser does: a doubled special character denotes one copy
of itself; a lone special character is malformed. -/
def undoubleSpecial : List Char → Option (List Char)
  | [] => some []
  | c :: cs =>
    if c = squoteC ∨ c = bslashC then
      match cs with
      | [] => none
      | c2 :: cs2 =>
        if c2 = c then (undoubleSpecial cs2).map (fun l => c :: l) else none
    else (undoubleSpecial cs).map (fun l => c :: l)

/-- String-level un-escaping, inverse to `pqQuoteLiteral`. -/
def unquoteLiteral (s : String) : Option String :=
  (undoubleSpecial s.data).map String.mk

lemma replaceChar_append (c : Char) (r a b : List Char) :
    replaceChar c r (a ++ b) = replaceChar c r a ++ replaceChar c r b := by
  induction a with
  | nil => rfl
  | cons x xs ih =>
    by_cases h : x = c
    · simp [replaceChar, h, ih, List.append_assoc]
    · simp [replaceChar, h, ih]

lemma pqQuote_data (l : List Char) :
    replaceChar squoteC [squoteC, squoteC] (replaceChar bslashC [bslashC, bslashC] l)
      = doubleSpecial l := by
  induction l with
  | nil => rfl
  | cons c cs ih =>
    by_cases hb : c = bslashC
    · subst hb
      have h1 : replaceChar bslashC [bslashC, bslashC] (bslashC :: cs)
          = [bslashC, bslashC] ++ replaceChar bslashC [bslashC, bslashC] cs := by
        simp [replaceChar]
      rw [h1, replaceChar_append, ih]
      have h2 : replaceChar squoteC [squoteC, squoteC] [bslashC, bslashC]
          = [bslashC, bslashC] := by decide
      rw [h2]
      have h3 : doubleSpecial (bslashC :: cs) = bslashC :: bslashC :: doubleSpecial cs := by
        simp [doubleSpecial]
      rw [h3]
      rfl
    · by_cases hq : c = squoteC
      · subst hq
        have hne : ¬ (squoteC = bslashC) := by decide
        have h1 : replaceChar bslashC [bslashC, bslashC] (squoteC :: cs)
            = squoteC :: replaceChar bslashC [bslashC, bslashC] cs := by
          simp [replaceChar, hne]
        rw [h1]
        have h2 : doubleSpecial (squoteC :: cs) = squoteC :: squoteC :: doubleSpecial cs := by
          simp [doubleSpecial]
        rw [h2]
        simp [replaceChar, ih]
      · have h1 : replaceChar bslashC [bslashC, bslashC] (c :: cs)
            = c :: replaceChar bslashC [bslashC, bslashC] cs := by
          simp [replaceChar, hb]
        rw [h1]
        have h2 : doubleSpecial (c :: cs) = c :: doubleSpecial cs := by
          simp [doubleSpecial, hb, hq]
        rw [h2]
        simp [replaceChar, hq, ih]

lemma undoubleSpecial_doubleSpecial (l : List Char) :
    undoubleSpecial (doubleSpecial l) = some l := by
  induction l with
  | nil => rfl
  | cons c cs ih =>
    by_cases h : c = squoteC ∨ c = bslashC
    · simp [doubleSpecial, undoubleSpecial, h, ih]
    · rw [doubleSpecial, if_neg h]
      rcases hds : doubleSpecial cs with _ | ⟨d, ds⟩
      · rw [hds] at ih
        have hcs : cs = [] := by simpa [undoubleSpecial] using ih
        subst hcs
        simp [undoubleSpecial, h]
      · rw [hds] at ih
        simp [undoubleSpecial, h, ih]

lemma pqQuoteLiteral_data (s : String) :
    (pqQuoteLiteral s).data = doubleSpecial s.data := by
  simp [pqQuoteLiteral, pqQuote_data]

lemma unquoteLiteral_pqQuoteLiteral (s : String) :
    unquoteLiteral (pqQuoteLiteral s) = some s := by
  unfold unquoteLiteral
  rw [pqQuoteLiteral_data, undoubleSpecial_doubleSpecial]
  cases s
  rfl

end PG

namespace PG

/-- The desired-state record consumed by `resourcePostgreSQLRoleCreate`,
with the feature gates it consults.  `password`/`validUntil` are `none` when
`d.GetOk` reports the attribute as unset. -/
structure RoleCreateData where
  name : String
  password : Option String
  encrypted : Bool
  validUntil : Option String
  connLimit : Int
  superuser : Bool
  createDatabase : Bool
  createRole : Bool
  inherit : Bool
  login : Bool
  replication : Bool
  bypassRLS : Bool
  featureRLS : Bool
  featureCreateRoleWith : Bool

/-- The password options appended by the `stringOpts` loop of
`resourcePostgreSQLRoleCreate` for the password attribute. -/
def passwordOpts (d : RoleCreateData) : List String :=
  match d.password with
  | none => []
  | some v =>
    if v = "" then []
    else if toUpperGo v = "NULL" then ["PASSWORD NULL"]
    else
      (if d.encrypted then ["ENCRYPTED"] else ["UNENCRYPTED"]) ++
        ["PASSWORD " ++ (squote ++ (pqQuoteLiteral v ++ squote))]

/-- The valid-until option appended by the `stringOpts` loop of
`resourcePostgreSQLRoleCreate`: `infinity` is single-quoted, any other value
is passed through `pq.QuoteIdentifier`. -/
def validUntilOpts (d : RoleCreateData) : List String :=
  match d.validUntil with
  | none => []
  | some v =>
    if v = "" then []
    else if v = "" ∨ toLowerGo v = "infinity" then
      ["VALID UNTIL " ++ (squote ++ ("infinity" ++ squote))]
    else ["VALID UNTIL " ++ quoteIdentifier v]

/-- One keyword from an enable/disable pair, per the `boolOpts` loop. -/
def boolTok (b : Bool) (enable disable : String) : String :=
  if b then enable else disable

/-- The full `createOpts` list built by `resourcePostgreSQLRoleCreate`:
string options, then the connection limit, then the boolean options in source
order.  Note that the first boolean option pairs the superuser attribute with
the CREATEDB/NOCREATEDB keywords, and that no option consults the
create-database attribute. -/
def createRoleOpts (d : RoleCreateData) : List String :=
  passwordOpts d ++ validUntilOpts d ++
    ["CONNECTION LIMIT " ++ toString d.connLimit] ++
    [boolTok d.superuser "CREATEDB" "NOCREATEDB",
     boolTok d.createRole "CREATEROLE" "NOCREATEROLE",
     boolTok d.inherit "INHERIT" "NOINHERIT",
     boolTok d.login "LOGIN" "NOLOGIN",
     boolTok d.replication "REPLICATION" "NOREPLICATION"] ++
    (if d.featureRLS then [boolTok d.bypassRLS "BYPASSRLS" "NOBYPASSRLS"] else [])

/-- The final `CREATE ROLE` statement built by `resourcePostgreSQLRoleCreate`,
including the version-gated `WITH` prefix. -/
def createRoleStatement (d : RoleCreateData) : String :=
  let opts := createRoleOpts d
  let joined := String.intercalate " " opts
  let createStr :=
    if opts.length > 0 then
      if d.featureCreateRoleWith then " WITH " ++ joined else " " ++ joined
    else joined
  "CREATE ROLE " ++ quoteIdentifier d.name ++ createStr

lemma mem_passwordOpts (d : RoleCreateData) (o : String) (h : o ∈ passwordOpts d) :
    o = "PASSWORD NULL" ∨ o = "ENCRYPTED" ∨ o = "UNENCRYPTED" ∨
      ∃ v, o = "PASSWORD " ++ (squote ++ (pqQuoteLiteral v ++ squote)) := by
  unfold passwordOpts at h
  rcases hp : d.password with _ | v
  · simp only [hp] at h
    simp at h
  · simp only [hp] at h
    by_cases h0 : v = ""
    · simp [h0] at h
    · rw [if_neg h0] at h
      by_cases hn : toUpperGo v = "NULL"
      · rw [if_pos hn] at h
        simp at h
        exact Or.inl h
      · rw [if_neg hn] at h
        by_cases he : d.encrypted
        · simp [he] at h
          rcases h with h | h
          · exact Or.inr (Or.inl h)
          · exact Or.inr (Or.inr (Or.inr ⟨v, h⟩))
        · simp [he] at h
          rcases h with h | h
          · exact Or.inr (Or.inr (Or.inl h))
          · exact Or.inr (Or.inr (Or.inr ⟨v, h⟩))

lemma mem_validUntilOpts (d : RoleCreateData) (o : String) (h : o ∈ validUntilOpts d) :
    o = "VALID UNTIL " ++ (squote ++ ("infinity" ++ squote)) ∨
      ∃ v, o = "VALID UNTIL " ++ quoteIdentifier v := by
  unfold validUntilOpts at h
  rcases hp : d.validUntil with _ | v
  · simp only [hp] at h
    simp at h
  · simp only [hp] at h
    by_cases h0 : v = ""
    · simp [h0] at h
    · rw [if_neg h0] at h
      by_cases hi : v = "" ∨ toLowerGo v = "infinity"
      · rw [if_pos hi] at h
        simp at h
        exact Or.inl h
      · rw [if_neg hi] at h
        simp at h
        exact Or.inr ⟨v, h⟩

lemma head_of_append (a b : String) (c : Char)
    (ha : a.data.head? = some c) : (a ++ b).data.head? = some c := by
  rw [String.data_append]
  cases ha2 : a.data with
  | nil =>
    rw [ha2] at ha
    simp at ha
  | cons x xs =>
    rw [ha2] at ha
    simpa using ha

/-- No option string emitted at create time starts with the letter S; in
particular neither SUPERUSER nor NOSUPERUSER is ever emitted. -/
lemma createRoleOpts_head_ne_S (d : RoleCreateData) (o : String)
    (h : o ∈ createRoleOpts d) : o.data.head? ≠ some 'S' := by
  unfold createRoleOpts at h
  simp only [List.append_assoc, List.mem_append] at h
  rcases h with h | h | h | h | h
  · rcases mem_passwordOpts d o h with h1 | h1 | h1 | ⟨v, h1⟩ <;> subst h1
    · decide
    · decide
    · decide
    · rw [head_of_append "PASSWORD " (squote ++ (pqQuoteLiteral v ++ squote)) 'P' (by decide)]
      decide
  · rcases mem_validUntilOpts d o h with h1 | ⟨v, h1⟩ <;> subst h1
    · rw [head_of_append "VALID UNTIL " (squote ++ ("infinity" ++ squote)) 'V' (by decide)]
      decide
    · rw [head_of_append "VALID UNTIL " (quoteIdentifier v) 'V' (by decide)]
      decide
  · simp at h
    subst h
    rw [head_of_append "CONNECTION LIMIT " (toString d.connLimit) 'C' (by decide)]
    decide
  · simp at h
    rcases h with h1 | h1 | h1 | h1 | h1 <;> subst h1 <;>
      unfold boolTok <;> split <;> decide
  · rcases hf : d.featureRLS with _ | _
    · rw [hf] at h
      simp at h
    · rw [hf] at h
      simp at h
      subst h
      unfold boolTok
      split <;> decide

end PG

namespace PG

/-- Input of `resourcePostgreSQLRoleUpdate`: old/new attribute values.  A
field is `some v` exactly when `d.HasChange` reports a change, with `v` the
new value (`d.Get` returns the new value throughout the update).
`currentRoles` is the granted-role list read from the catalog. -/
structure RoleUpdateData where
  oldName : String
  newName : String
  bypassRLS : Option Bool
  connLimit : Option Int
  createDatabase : Option Bool
  createRole : Option Bool
  inherit : Option Bool
  login : Option Bool
  replication : Option Bool
  superuser : Option Bool
  validUntil : Option String
  currentRoles : List String
  desiredRoles : List String
  featureRLS : Bool

/-- Function `setRoleName`: no-op without a name change; empty new name is an error;
otherwise the rename statement. -/
def setRoleNameStmts (d : RoleUpdateData) : Except String (List RoleStmt) :=
  if d.oldName = d.newName then Except.ok []
  else if d.newName = "" then Except.error "Error setting role name to an empty string"
  else Except.ok [RoleStmt.rename d.oldName d.newName]

/-- Function `setRoleBypassRLS`: no-op without a change; fails when the server does
not support row-level security; otherwise an ALTER against the (new) role
name. -/
def setRoleBypassRLSStmts (d : RoleUpdateData) : Except String (List RoleStmt) :=
  match d.bypassRLS with
  | none => Except.ok []
  | some b =>
    if d.featureRLS then
      Except.ok [RoleStmt.alter d.newName ("WITH " ++ boolTok b "BYPASSRLS" "NOBYPASSRLS")]
    else
      Except.error "PostgreSQL client is talking with a server that does not support PostgreSQL Row-Level Security"

/-- Function `setRoleConnLimit`: ALTER ROLE ... CONNECTION LIMIT n on change. -/
def setRoleConnLimitStmts (d : RoleUpdateData) : List RoleStmt :=
  match d.connLimit with
  | none => []
  | some k => [RoleStmt.alter d.newName ("CONNECTION LIMIT " ++ toString k)]

/-- Common shape of `setRoleCreateDB`, `setRoleCreateRole`, `setRoleInherit`,
`setRoleLogin`, `setRoleReplication`, `setRoleSuperuser`: ALTER ROLE ... WITH
tok on change. -/
def setBoolAttrStmts (change : Option Bool) (target enable disable : String) :
    List RoleStmt :=
  match change with
  | none => []
  | some b => [RoleStmt.alter target ("WITH " ++ boolTok b enable disable)]

/-- Function `setRoleValidUntil`: no-op on no change or empty value; the update path
wraps the value in single quotes via `pqQuoteLiteral`. -/
def setRoleValidUntilStmts (d : RoleUpdateData) : List RoleStmt :=
  match d.validUntil with
  | none => []
  | some v =>
    if v = "" then []
    else
      [RoleStmt.alter d.newName ("VALID UNTIL " ++
        (squote ++ (pqQuoteLiteral (if toLowerGo v = "infinity" then "infinity" else v) ++ squote)))]

/-- The statement sequence executed by `resourcePostgreSQLRoleUpdate`, in
source order: rename, bypass-RLS, connection limit, create-db, create-role,
inherit, login, replication, superuser, valid-until, then revoke of all
current roles, then grant of all desired roles. -/
def roleUpdateStmts (d : RoleUpdateData) : Except String (List RoleStmt) :=
  match setRoleNameStmts d with
  | Except.error e => Except.error e
  | Except.ok s1 =>
    match setRoleBypassRLSStmts d with
    | Except.error e => Except.error e
    | Except.ok s2 =>
      Except.ok (s1 ++ s2 ++ setRoleConnLimitStmts d ++
        setBoolAttrStmts d.createDatabase d.newName "CREATEDB" "NOCREATEDB" ++
        setBoolAttrStmts d.createRole d.newName "CREATEROLE" "NOCREATEROLE" ++
        setBoolAttrStmts d.inherit d.newName "INHERIT" "NOINHERIT" ++
        setBoolAttrStmts d.login d.newName "LOGIN" "NOLOGIN" ++
        setBoolAttrStmts d.replication d.newName "REPLICATION" "NOREPLICATION" ++
        setBoolAttrStmts d.superuser d.newName "SUPERUSER" "NOSUPERUSER" ++
        setRoleValidUntilStmts d ++
        revokeRoles d.currentRoles d.newName ++
        grantRoles d.desiredRoles d.newName)

/-- The role a statement is issued against: a rename targets the old name and
every other statement its explicit target. -/
def stmtTarget : RoleStmt → String
  | .rename o _ => o
  | .alter t _ => t
  | .revoke _ t => t
  | .grant _ t => t

lemma mem_setBoolAttrStmts_target (c : Option Bool) (t e dis : String) (s : RoleStmt)
    (h : s ∈ setBoolAttrStmts c t e dis) : stmtTarget s = t := by
  cases c with
  | none => simp [setBoolAttrStmts] at h
  | some b =>
    simp [setBoolAttrStmts] at h
    subst h
    rfl

lemma mem_setRoleConnLimitStmts_target (d : RoleUpdateData) (s : RoleStmt)
    (h : s ∈ setRoleConnLimitStmts d) : stmtTarget s = d.newName := by
  unfold setRoleConnLimitStmts at h
  cases hc : d.connLimit with
  | none => rw [hc] at h; simp at h
  | some k =>
    rw [hc] at h
    simp at h
    subst h
    rfl

lemma mem_setRoleValidUntilStmts_target (d : RoleUpdateData) (s : RoleStmt)
    (h : s ∈ setRoleValidUntilStmts d) : stmtTarget s = d.newName := by
  unfold setRoleValidUntilStmts at h
  cases hv : d.validUntil with
  | none => rw [hv] at h; simp at h
  | some v =>
    simp only [hv] at h
    by_cases h0 : v = ""
    · simp [h0] at h
    · rw [if_neg h0] at h
      simp at h
      subst h
      rfl

lemma setRoleBypassRLSStmts_target (d : RoleUpdateData) (s2 : List RoleStmt)
    (h : setRoleBypassRLSStmts d = Except.ok s2) :
    ∀ s ∈ s2, stmtTarget s = d.newName := by
  unfold setRoleBypassRLSStmts at h
  cases hb : d.bypassRLS with
  | none =>
    rw [hb] at h
    simp at h
    subst h
    simp
  | some b =>
    simp only [hb] at h
    by_cases hf : d.featureRLS
    · rw [if_pos hf] at h
      simp at h
      subst h
      intro s hs
      simp at hs
      subst hs
      rfl
    · rw [if_neg hf] at h
      simp at h

lemma mem_revokeRoles_target (C : List String) (r : String) (s : RoleStmt)
    (h : s ∈ revokeRoles C r) : stmtTarget s = r := by
  unfold revokeRoles at h
  rcases List.mem_map.mp h with ⟨g, _, hg⟩
  subst hg
  rfl

lemma mem_grantRoles_target (D : List String) (r : String) (s : RoleStmt)
    (h : s ∈ grantRoles D r) : stmtTarget s = r := by
  unfold grantRoles at h
  rcases List.mem_map.mp h with ⟨g, _, hg⟩
  subst hg
  rfl

end PG

namespace PG

lemma ne_of_head_ne (s t : String) (h : s.data.head? ≠ t.data.head?) : s ≠ t :=
  fun he => h (by rw [he])

/-- Role creation never emits the SUPERUSER or NOSUPERUSER keyword: no
element of `createRoleOpts` equals either token. -/
lemma createRoleOpts_no_superuser_tok (d : RoleCreateData) (o : String)
    (h : o ∈ createRoleOpts d) : o ≠ "SUPERUSER" ∧ o ≠ "NOSUPERUSER" := by
  unfold createRoleOpts at h
  simp only [List.append_assoc, List.mem_append] at h
  rcases h with h | h | h | h | h
  · rcases mem_passwordOpts d o h with h1 | h1 | h1 | ⟨v, h1⟩ <;> subst h1
    · exact ⟨by decide, by decide⟩
    · exact ⟨by decide, by decide⟩
    · exact ⟨by decide, by decide⟩
    · constructor
      · apply ne_of_head_ne
        rw [head_of_append "PASSWORD " _ 'P' (by decide)]
        decide
      · apply ne_of_head_ne
        rw [head_of_append "PASSWORD " _ 'P' (by decide)]
        decide
  · rcases mem_validUntilOpts d o h with h1 | ⟨v, h1⟩ <;> subst h1
    · exact ⟨by decide, by decide⟩
    · constructor
      · apply ne_of_head_ne
        rw [head_of_append "VALID UNTIL " _ 'V' (by decide)]
        decide
      · apply ne_of_head_ne
        rw [head_of_append "VALID UNTIL " _ 'V' (by decide)]
        decide
  · simp at h
    subst h
    constructor
    · apply ne_of_head_ne
      rw [head_of_append "CONNECTION LIMIT " _ 'C' (by decide)]
      decide
    · apply ne_of_head_ne
      rw [head_of_append "CONNECTION LIMIT " _ 'C' (by decide)]
      decide
  · simp at h
    rcases h with h1 | h1 | h1 | h1 | h1 <;> subst h1 <;> unfold boolTok <;> split <;>
      exact ⟨by decide, by decide⟩
  · cases hf : d.featureRLS with
    | false =>
      rw [hf] at h
      simp at h
    | true =>
      rw [hf] at h
      simp at h
      subst h
      unfold boolTok
      split <;> exact ⟨by decide, by decide⟩

lemma doubleSpecial_count (l : List Char) (c : Char) (hc : c = squoteC ∨ c = bslashC) :
    (doubleSpecial l).count c = 2 * l.count c := by
  induction l with
  | nil => simp [doubleSpecial]
  | cons a as ih =>
    by_cases h : a = squoteC ∨ a = bslashC
    · rw [doubleSpecial, if_pos h]
      by_cases hac : a = c
      · subst hac
        simp [List.count_cons, ih]
        omega
      · simp [List.count_cons, hac, ih]
    · rw [doubleSpecial, if_neg h]
      have hac : ¬ a = c := fun he => h (he ▸ hc)
      simp [List.count_cons, hac, ih]

/-- Sample create-time desired state: superuser requested, create-database
not requested. -/
def sampleCreateData : RoleCreateData :=
  { name := "r", password := none, encrypted := true, validUntil := none,
    connLimit := -1, superuser := true, createDatabase := false,
    createRole := false, inherit := true, login := false, replication := false,
    bypassRLS := false, featureRLS := false, featureCreateRoleWith := true }

/-- Sample create-time desired state with a non-infinity valid-until
timestamp. -/
def sampleCreateDataVU : RoleCreateData :=
  { sampleCreateData with
      validUntil := some "2018-01-01"
      superuser := false }

/-- A password containing a single quote and a backslash. -/
def samplePw : String := "a" ++ (squote ++ (bslash ++ "b"))

/-- Sample create-time desired state with `samplePw` as the password. -/
def samplePwData : RoleCreateData :=
  { sampleCreateData with
      password := some samplePw
      superuser := false }

/-- Sample update: name change plus connection-limit change. -/
def sampleUpdateData : RoleUpdateData :=
  { oldName := "old", newName := "new", bypassRLS := none, connLimit := some 5,
    createDatabase := none, createRole := none, inherit := none, login := none,
    replication := none, superuser := none, validUntil := none,
    currentRoles := [], desiredRoles := [], featureRLS := false }

/-- Sample update changing only the valid-until timestamp. -/
def sampleUpdateDataVU : RoleUpdateData :=
  { sampleUpdateData with
      oldName := "new"
      connLimit := none
      validUntil := some "2018-01-01" }

end PG

namespace PG

/-- The ordered query list built by `resourcePostgreSQLRoleDelete`:
reassign-ownership and drop-owned (skipped together by
skip_reassign_owned), then drop-role (skipped by skip_drop_role). -/
def deleteRoleQueries (roleName : String) (skipReassignOwned skipDropRole : Bool)
    (featureReassignOwnedCurrentUser : Bool) (username : String) : List String :=
  (if !skipReassignOwned then
      [(if featureReassignOwnedCurrentUser then
          "REASSIGN OWNED BY " ++ (quoteIdentifier roleName ++ " TO CURRENT_USER")
        else
          "REASSIGN OWNED BY " ++
            (quoteIdentifier roleName ++ (" TO " ++ quoteIdentifier username))),
       "DROP OWNED BY " ++ quoteIdentifier roleName]
    else []) ++
  (if !skipDropRole then ["DROP ROLE " ++ quoteIdentifier roleName] else [])

/-- Outcome of one delete invocation: the statements actually executed,
whether a commit was issued, whether the resource identity was cleared, and
the returned result. -/
structure RoleDeleteResult where
  executed : List String
  committed : Bool
  clearedId : Bool
  result : Except String Unit

/-- Sequential execution of a query list against an execution oracle:
statements executed so far and the first failure, if any. -/
def runQueries (ex : String → Except String Unit) :
    List String → List String × Option String
  | [] => ([], none)
  | q :: qs =>
    match ex q with
    | Except.error e => ([q], some e)
    | Except.ok _ =>
      let rest := runQueries ex qs
      (q :: rest.1, rest.2)

/-- Function `resourcePostgreSQLRoleDelete`: build the query list; when nonempty,
execute each in the transaction and commit; clear the identity and return nil
only after all of that succeeded.  When the list is empty nothing is
executed and no commit is issued, but the identity is still cleared. -/
def resourcePostgreSQLRoleDelete (roleName : String)
    (skipReassignOwned skipDropRole featureCU : Bool) (username : String)
    (ex : String → Except String Unit) (commitResult : Except String Unit) :
    RoleDeleteResult :=
  let queries := deleteRoleQueries roleName skipReassignOwned skipDropRole featureCU username
  if queries.length > 0 then
    match runQueries ex queries with
    | (done, some e) =>
      { executed := done, committed := false, clearedId := false,
        result := Except.error ("Error deleting role: " ++ e) }
    | (done, none) =>
      match commitResult with
      | Except.error e =>
        { executed := done, committed := false, clearedId := false,
          result := Except.error ("Error committing schema: " ++ e) }
      | Except.ok _ =>
        { executed := done, committed := true, clearedId := true,
          result := Except.ok () }
  else
    { executed := [], committed := false, clearedId := true,
      result := Except.ok () }

lemma get_of_append (a b : String) (n : Nat) (c : Char)
    (hlen : n < a.data.length) (ha : a.data[n]? = some c) :
    (a ++ b).data[n]? = some c := by
  rw [String.data_append, List.getElem?_append_left hlen]
  exact ha

lemma ne_of_get_ne (s t : String) (n : Nat)
    (h : s.data[n]? ≠ t.data[n]?) : s ≠ t :=
  fun he => h (by rw [he])

end PG

namespace PG

/-- Transaction-level operations observable from an extension Update. -/
inductive TxOp where
  | exec (stmt : String)
  | commit
  | rollback
deriving DecidableEq

/-- Input of `resourcePostgreSQLExtensionUpdate`: which attributes changed
and their new values. -/
structure ExtUpdateData where
  name : String
  hasChangeSchema : Bool
  schema : String
  hasChangeVersion : Bool
  version : String

/-- The statement built by `setExtSchema`, or its empty-name error. -/
def setExtSchemaStmts (d : ExtUpdateData) : Except String (List String) :=
  if d.hasChangeSchema then
    if d.schema = "" then Except.error "schema name cannot be set to an empty string"
    else
      Except.ok ["ALTER EXTENSION " ++
        (quoteIdentifier d.name ++ (" SET SCHEMA " ++ quoteIdentifier d.schema))]
  else Except.ok []

/-- The statement built by `setExtVersion`: an empty version updates to the
latest. -/
def setExtVersionStmts (d : ExtUpdateData) : List String :=
  if d.hasChangeVersion then
    [if d.version = "" then "ALTER EXTENSION " ++ (quoteIdentifier d.name ++ " UPDATE")
     else "ALTER EXTENSION " ++
       (quoteIdentifier d.name ++ (" UPDATE TO " ++ quoteIdentifier d.version))]
  else []

/-- Sequential execution of statements inside the transaction: the exec
trace so far and the first failure, if any. -/
def execAll (ex : String → Except String Unit) : List String → List TxOp × Option String
  | [] => ([], none)
  | q :: qs =>
    match ex q with
    | Except.error e => ([TxOp.exec q], some e)
    | Except.ok _ =>
      let rest := execAll ex qs
      (TxOp.exec q :: rest.1, rest.2)

/-- Function `resourcePostgreSQLExtensionUpdate`: starts a transaction, applies the
schema and version statements in order, and returns the read-back result;
the deferred `txn.Rollback()` always runs because the function contains no
commit call. -/
def resourcePostgreSQLExtensionUpdate (d : ExtUpdateData)
    (ex : String → Except String Unit) (readResult : Except String Unit) :
    List TxOp × Except String Unit :=
  match setExtSchemaStmts d with
  | Except.error e => ([TxOp.rollback], Except.error e)
  | Except.ok s1 =>
    match execAll ex s1 with
    | (ops1, some e) =>
      (ops1 ++ [TxOp.rollback], Except.error ("Error updating extension SCHEMA: " ++ e))
    | (ops1, none) =>
      match execAll ex (setExtVersionStmts d) with
      | (ops2, some e) =>
        (ops1 ++ (ops2 ++ [TxOp.rollback]),
          Except.error ("Error updating extension version: " ++ e))
      | (ops2, none) => (ops1 ++ (ops2 ++ [TxOp.rollback]), readResult)

lemma commit_not_mem_execAll (ex : String → Except String Unit) (qs : List String) :
    TxOp.commit ∉ (execAll ex qs).1 := by
  induction qs with
  | nil => simp [execAll]
  | cons q qs ih =>
    simp only [execAll]
    cases ex q with
    | error e => simp
    | ok _ =>
      simp
      exact ih

/-- Sample extension update: a successful schema move. -/
def sampleExtUpdate : ExtUpdateData :=
  { name := "pg_trgm", hasChangeSchema := true, schema := "bar",
    hasChangeVersion := false, version := "" }

/-- Execution oracle on which every statement succeeds. -/
def execOk : String → Except String Unit := fun _ => Except.ok ()

end PG

namespace PG

/-- Outcome of a single-row catalog query (`QueryRow(...).Scan(...)`):
`sql.ErrNoRows`, a scanned row, or any other error. -/
inductive QueryResult where
  | noRows
  | row (value : String)
  | fail (err : String)
deriving DecidableEq

/-- Function `dbExists` from helpers.go. -/
def dbExists : QueryResult → Bool × Option String
  | QueryResult.noRows => (false, none)
  | QueryResult.fail e => (false, some ("could not check if database exists: " ++ e))
  | QueryResult.row _ => (true, none)

/-- Function `roleExists` from helpers.go. -/
def roleExists : QueryResult → Bool × Option String
  | QueryResult.noRows => (false, none)
  | QueryResult.fail e => (false, some ("could not check if role exists: " ++ e))
  | QueryResult.row _ => (true, none)

/-- Function `schemaExists` from helpers.go. -/
def schemaExists : QueryResult → Bool × Option String
  | QueryResult.noRows => (false, none)
  | QueryResult.fail e => (false, some ("could not check if schema exists: " ++ e))
  | QueryResult.row _ => (true, none)

/-- Function `resourcePostgreSQLRoleExists`: the pg_roles probe, propagating the raw
error. -/
def resourcePostgreSQLRoleExists : QueryResult → Bool × Option String
  | QueryResult.noRows => (false, none)
  | QueryResult.fail e => (false, some e)
  | QueryResult.row _ => (true, none)

/-- Function `resourcePostgreSQLExtensionExists`: parse the names (an id error aborts),
check the database exists, open a connection to it, then probe
pg_extension. -/
def resourcePostgreSQLExtensionExists (idErr : Option String) (dbQuery : QueryResult)
    (connResult : Except String Unit) (extQuery : QueryResult) :
    Bool × Option String :=
  match idErr with
  | some e => (false, some e)
  | none =>
    match dbExists dbQuery with
    | (_, some e) => (false, some e)
    | (false, none) => (false, none)
    | (true, none) =>
      match connResult with
      | Except.error e => (false, some e)
      | Except.ok _ =>
        match extQuery with
        | QueryResult.noRows => (false, none)
        | QueryResult.fail e => (false, some e)
        | QueryResult.row _ => (true, none)

end PG

namespace PG

/-- Attach a character to the front of the first segment of a split result. -/
def consFirst (c : Char) : List (List Char) → List (List Char)
  | [] => [[c]]
  | p :: ps => (c :: p) :: ps

/-- Go `strings.Split(s, "-")` over the character list: hyphens separate
segments; no hyphen yields the single segment `[s]`. -/
def splitHyphen : List Char → List (List Char)
  | [] => [[]]
  | c :: cs => if c = '-' then [] :: splitHyphen cs else consFirst c (splitHyphen cs)

/-- Go `strings.Split(s, "-")`. -/
def goSplitHyphen (s : String) : List String := (splitHyphen s.data).map String.mk

/-- Go `fmt %v` of a string slice: space-separated inside brackets. -/
def goSliceFmt (xs : List String) : String :=
  "[" ++ (String.intercalate " " xs ++ "]")

/-- The malformed-identity error of `getExtNames`. -/
def extIDFormatErr (id : String) (parsed : List String) : String :=
  "extension ID " ++ (id ++ (" has not the expected format " ++
    (squote ++ ("database-extension" ++ (squote ++ (": " ++ goSliceFmt parsed))))))

/-- Function `generateExtID`: `fmt.Sprintf("%s-%s", database, name)`. -/
def generateExtID (database extName : String) : String :=
  database ++ ("-" ++ extName)

/-- Function `getExtNames`: read the names from state; when the extension name is
empty (import), parse the resource ID by splitting on "-"; exactly two
segments are required. -/
def getExtNames (database extName id : String) : Except String (String × String) :=
  if extName = "" then
    let parsed := goSplitHyphen id
    if parsed.length ≠ 2 then Except.error (extIDFormatErr id parsed)
    else Except.ok (parsed.getD 0 "", parsed.getD 1 "")
  else Except.ok (database, extName)

lemma splitHyphen_no_hyphen (l : List Char) (h : ('-' : Char) ∉ l) :
    splitHyphen l = [l] := by
  induction l with
  | nil => rfl
  | cons c cs ih =>
    have hc : ¬ c = '-' := fun he => h (he ▸ List.mem_cons_self c cs)
    have hcs : ('-' : Char) ∉ cs := fun hm => h (List.mem_cons_of_mem c hm)
    rw [splitHyphen, if_neg hc, ih hcs]
    rfl

lemma splitHyphen_append (d n : List Char) (hd : ('-' : Char) ∉ d) :
    splitHyphen (d ++ '-' :: n) = d :: splitHyphen n := by
  induction d with
  | nil =>
    rw [List.nil_append, splitHyphen, if_pos rfl]
  | cons c d ih =>
    have hc : ¬ c = '-' := fun he => hd (he ▸ List.mem_cons_self c d)
    have hd2 : ('-' : Char) ∉ d := fun hm => hd (List.mem_cons_of_mem c hm)
    rw [List.cons_append, splitHyphen, if_neg hc, ih hd2]
    rfl

end PG

/-- C1 counterexample: with current set C = desired set D = the one-element
set containing "admin", the claim predicts no membership statement at all for
"admin"; the code emits a REVOKE and a GRANT for it. -/
theorem membership_ops_touch_common_role_cex :
    PG.revokeRoles ["admin"] "myrole" ++ PG.grantRoles ["admin"] "myrole" =
      [PG.RoleStmt.revoke "admin" "myrole", PG.RoleStmt.grant "admin" "myrole"] ∧
    PG.revokeRoles ["admin"] "myrole" ++ PG.grantRoles ["admin"] "myrole" ≠ [] := by
  exact ⟨rfl, by decide⟩

/-- C1 (amended): for every role Update the membership operations are a
REVOKE of every member of the current set C followed by a GRANT of every
member of the desired set D; a role present in both C and D is revoked and
re-granted rather than left untouched; because all revokes precede all
grants, the net effect on C is still exactly D. -/
theorem membership_ops_revoke_all_grant_all (C D : List String) (r : String) :
    (∀ g ∈ C, PG.RoleStmt.revoke g r ∈ PG.revokeRoles C r ++ PG.grantRoles D r) ∧
    (∀ g ∈ D, PG.RoleStmt.grant g r ∈ PG.revokeRoles C r ++ PG.grantRoles D r) ∧
    PG.applyStmts C.toFinset (PG.revokeRoles C r ++ PG.grantRoles D r) = D.toFinset := by
  refine ⟨?_, ?_, ?_⟩
  · intro g hg
    exact List.mem_append_left _ (List.mem_map_of_mem _ hg)
  · intro g hg
    exact List.mem_append_right _ (List.mem_map_of_mem _ hg)
  · unfold PG.applyStmts
    rw [List.foldl_append]
    have h1 := PG.applyStmts_revokeRoles C C.toFinset r
    have h2 := PG.applyStmts_grantRoles D (C.toFinset \ C.toFinset) r
    unfold PG.applyStmts at h1 h2
    rw [h1, h2, Finset.sdiff_self, Finset.empty_union]

/-- C1 amended-claim witness at concrete inputs C = ["a"], D = ["b"]. -/
theorem membership_ops_revoke_all_grant_all_witness :
    PG.RoleStmt.revoke "a" "r" ∈ PG.revokeRoles ["a"] "r" ++ PG.grantRoles ["b"] "r" ∧
    PG.RoleStmt.grant "b" "r" ∈ PG.revokeRoles ["a"] "r" ++ PG.grantRoles ["b"] "r" ∧
    PG.applyStmts (["a"] : List String).toFinset
      (PG.revokeRoles ["a"] "r" ++ PG.grantRoles ["b"] "r") =
      (["b"] : List String).toFinset :=
  ⟨(membership_ops_revoke_all_grant_all ["a"] ["b"] "r").1 "a" (by decide),
   (membership_ops_revoke_all_grant_all ["a"] ["b"] "r").2.1 "b" (by decide),
   (membership_ops_revoke_all_grant_all ["a"] ["b"] "r").2.2⟩

/-- C2: contrary to the claim, `resourcePostgreSQLExtensionUpdate` never
commits: for every input and execution oracle the transaction trace contains
no commit and ends with the deferred rollback, so even a fully successful
update is discarded; concretely, a successful schema move executes the ALTER
and then rolls it back. -/
theorem ext_update_never_commits (d : PG.ExtUpdateData)
    (ex : String → Except String Unit) (readResult : Except String Unit) :
    PG.TxOp.commit ∉ (PG.resourcePostgreSQLExtensionUpdate d ex readResult).1 ∧
    (PG.resourcePostgreSQLExtensionUpdate d ex readResult).1.getLast? =
      some PG.TxOp.rollback ∧
    PG.resourcePostgreSQLExtensionUpdate PG.sampleExtUpdate PG.execOk (Except.ok ()) =
      ([PG.TxOp.exec ("ALTER EXTENSION " ++
          (PG.quoteIdentifier "pg_trgm" ++ (" SET SCHEMA " ++ PG.quoteIdentifier "bar"))),
        PG.TxOp.rollback], Except.ok ()) := by
  refine ⟨?_, ?_, rfl⟩
  · unfold PG.resourcePostgreSQLExtensionUpdate
    cases hs : PG.setExtSchemaStmts d with
    | error e =>
      show PG.TxOp.commit ∉ [PG.TxOp.rollback]
      decide
    | ok s1 =>
      have hc1 := PG.commit_not_mem_execAll ex s1
      have hc2 := PG.commit_not_mem_execAll ex (PG.setExtVersionStmts d)
      rcases h1 : PG.execAll ex s1 with ⟨ops1, r1⟩
      rw [h1] at hc1
      rcases h2 : PG.execAll ex (PG.setExtVersionStmts d) with ⟨ops2, r2⟩
      rw [h2] at hc2
      simp only [h1, h2]
      cases r1 with
      | some e =>
        show PG.TxOp.commit ∉ ops1 ++ [PG.TxOp.rollback]
        intro hc
        rcases List.mem_append.mp hc with hc | hc
        · exact hc1 hc
        · simp at hc
      | none =>
        cases r2 with
        | some e =>
          show PG.TxOp.commit ∉ ops1 ++ (ops2 ++ [PG.TxOp.rollback])
          intro hc
          rcases List.mem_append.mp hc with hc | hc
          · exact hc1 hc
          · rcases List.mem_append.mp hc with hc | hc
            · exact hc2 hc
            · simp at hc
        | none =>
          show PG.TxOp.commit ∉ ops1 ++ (ops2 ++ [PG.TxOp.rollback])
          intro hc
          rcases List.mem_append.mp hc with hc | hc
          · exact hc1 hc
          · rcases List.mem_append.mp hc with hc | hc
            · exact hc2 hc
            · simp at hc
  · unfold PG.resourcePostgreSQLExtensionUpdate
    cases hs : PG.setExtSchemaStmts d with
    | error e =>
      show ([PG.TxOp.rollback] : List PG.TxOp).getLast? = some PG.TxOp.rollback
      rfl
    | ok s1 =>
      rcases h1 : PG.execAll ex s1 with ⟨ops1, r1⟩
      rcases h2 : PG.execAll ex (PG.setExtVersionStmts d) with ⟨ops2, r2⟩
      simp only [h1, h2]
      cases r1 with
      | some e =>
        show (ops1 ++ [PG.TxOp.rollback]).getLast? = some PG.TxOp.rollback
        exact List.getLast?_concat _
      | none =>
        cases r2 with
        | some e =>
          show (ops1 ++ (ops2 ++ [PG.TxOp.rollback])).getLast? = some PG.TxOp.rollback
          rw [← List.append_assoc]
          exact List.getLast?_concat _
        | none =>
          show (ops1 ++ (ops2 ++ [PG.TxOp.rollback])).getLast? = some PG.TxOp.rollback
          rw [← List.append_assoc]
          exact List.getLast?_concat _

/-- C3: the claim fails as reflected against the code, and this is a code
bug: `resourcePostgreSQLRoleCreate` never emits SUPERUSER or NOSUPERUSER;
the is-superuser attribute drives the CREATEDB/NOCREATEDB keyword pair, and
the can-create-db attribute is ignored by statement construction
entirely. -/
theorem createRole_superuser_keyword (d : PG.RoleCreateData) :
    "SUPERUSER" ∉ PG.createRoleOpts d ∧
    "NOSUPERUSER" ∉ PG.createRoleOpts d ∧
    (d.superuser = true → "CREATEDB" ∈ PG.createRoleOpts d) ∧
    (d.superuser = false → "NOCREATEDB" ∈ PG.createRoleOpts d) ∧
    (∀ b, PG.createRoleOpts { d with createDatabase := b } = PG.createRoleOpts d) := by
  refine ⟨?_, ?_, ?_, ?_, ?_⟩
  · intro h
    exact (PG.createRoleOpts_no_superuser_tok d _ h).1 rfl
  · intro h
    exact (PG.createRoleOpts_no_superuser_tok d _ h).2 rfl
  · intro hs
    unfold PG.createRoleOpts
    simp [PG.boolTok, hs]
  · intro hs
    unfold PG.createRoleOpts
    simp [PG.boolTok, hs]
  · intro b
    rfl

/-- C3 witness: with superuser requested and create-database not requested,
the CREATE ROLE options contain CREATEDB and no SUPERUSER keyword, and
flipping create-database changes nothing. -/
theorem createRole_superuser_keyword_witness :
    "SUPERUSER" ∉ PG.createRoleOpts PG.sampleCreateData ∧
    "CREATEDB" ∈ PG.createRoleOpts PG.sampleCreateData ∧
    PG.createRoleOpts { PG.sampleCreateData with createDatabase := true } =
      PG.createRoleOpts PG.sampleCreateData :=
  ⟨(createRole_superuser_keyword PG.sampleCreateData).1,
   (createRole_superuser_keyword PG.sampleCreateData).2.2.1 rfl,
   (createRole_superuser_keyword PG.sampleCreateData).2.2.2.2 true⟩

/-- C4 counterexample: at create time a non-infinity valid-until value is
rendered through the identifier-quoting function (wrapped in double quotes),
not through the literal-quoting function. -/
theorem create_valid_until_identifier_quoted_cex :
    ("VALID UNTIL " ++ PG.quoteIdentifier "2018-01-01")
        ∈ PG.createRoleOpts PG.sampleCreateDataVU ∧
    ("VALID UNTIL " ++ (PG.squote ++ (PG.pqQuoteLiteral "2018-01-01" ++ PG.squote)))
        ∉ PG.createRoleOpts PG.sampleCreateDataVU ∧
    PG.quoteIdentifier "2018-01-01" = PG.dquote ++ ("2018-01-01" ++ PG.dquote) := by
  refine ⟨?_, ?_, ?_⟩ <;> decide

/-- C4 (amended): the password literal and the update-path valid-until are
escaped via `pqQuoteLiteral`, which doubles every embedded single quote and
backslash and un-escapes back to the original value; the create-path
non-infinity valid-until, however, is quoted as an identifier. -/
theorem literal_quoting_amended (s v : String) (d : PG.RoleCreateData)
    (u : PG.RoleUpdateData) :
    PG.unquoteLiteral (PG.pqQuoteLiteral s) = some s ∧
    (PG.pqQuoteLiteral s).data.count PG.squoteC = 2 * s.data.count PG.squoteC ∧
    (PG.pqQuoteLiteral s).data.count PG.bslashC = 2 * s.data.count PG.bslashC ∧
    (d.password = some v → v ≠ "" → PG.toUpperGo v ≠ "NULL" →
      ("PASSWORD " ++ (PG.squote ++ (PG.pqQuoteLiteral v ++ PG.squote)))
        ∈ PG.createRoleOpts d) ∧
    (u.validUntil = some v → v ≠ "" → PG.toLowerGo v ≠ "infinity" →
      PG.RoleStmt.alter u.newName
          ("VALID UNTIL " ++ (PG.squote ++ (PG.pqQuoteLiteral v ++ PG.squote)))
        ∈ PG.setRoleValidUntilStmts u) := by
  refine ⟨PG.unquoteLiteral_pqQuoteLiteral s, ?_, ?_, ?_, ?_⟩
  · rw [PG.pqQuoteLiteral_data]
    exact PG.doubleSpecial_count s.data PG.squoteC (Or.inl rfl)
  · rw [PG.pqQuoteLiteral_data]
    exact PG.doubleSpecial_count s.data PG.bslashC (Or.inr rfl)
  · intro hp h0 hn
    unfold PG.createRoleOpts PG.passwordOpts
    simp only [hp, List.append_assoc, List.mem_append]
    rw [if_neg h0, if_neg hn]
    by_cases he : d.encrypted <;> simp [he]
  · intro hu h0 hn
    unfold PG.setRoleValidUntilStmts
    simp only [hu]
    rw [if_neg h0, if_neg hn]
    simp

/-- C4 amended-claim witness: a password containing a single quote and a
backslash round-trips, and the concrete password / update-path valid-until
options are literal-quoted. -/
theorem literal_quoting_amended_witness :
    PG.unquoteLiteral (PG.pqQuoteLiteral PG.samplePw) = some PG.samplePw ∧
    ("PASSWORD " ++ (PG.squote ++ (PG.pqQuoteLiteral PG.samplePw ++ PG.squote)))
        ∈ PG.createRoleOpts PG.samplePwData ∧
    PG.RoleStmt.alter "new"
        ("VALID UNTIL " ++ (PG.squote ++ (PG.pqQuoteLiteral "2018-01-01" ++ PG.squote)))
      ∈ PG.setRoleValidUntilStmts PG.sampleUpdateDataVU :=
  ⟨(literal_quoting_amended PG.samplePw PG.samplePw PG.samplePwData
      PG.sampleUpdateDataVU).1,
   (literal_quoting_amended PG.samplePw PG.samplePw PG.samplePwData
      PG.sampleUpdateDataVU).2.2.2.1 rfl (by decide) (by decide),
   (literal_quoting_amended PG.samplePw "2018-01-01" PG.samplePwData
      PG.sampleUpdateDataVU).2.2.2.2 rfl (by decide) (by decide)⟩

/-- C5: for every role Update whose name changes and whose statement
generation succeeds, the rename statement comes first and every later
statement (attribute alter, membership revoke, membership grant) targets the
new name. -/
theorem role_update_rename_first (d : PG.RoleUpdateData) (stmts : List PG.RoleStmt)
    (hchange : d.oldName ≠ d.newName)
    (h : PG.roleUpdateStmts d = Except.ok stmts) :
    ∃ rest, stmts = PG.RoleStmt.rename d.oldName d.newName :: rest ∧
      ∀ s ∈ rest, PG.stmtTarget s = d.newName := by
  by_cases hnew : d.newName = ""
  · exfalso
    unfold PG.roleUpdateStmts PG.setRoleNameStmts at h
    rw [if_neg hchange, if_pos hnew] at h
    simp at h
  · have h1 : PG.setRoleNameStmts d =
        Except.ok [PG.RoleStmt.rename d.oldName d.newName] := by
      unfold PG.setRoleNameStmts
      rw [if_neg hchange, if_neg hnew]
    unfold PG.roleUpdateStmts at h
    cases hb : PG.setRoleBypassRLSStmts d with
    | error e =>
      rw [h1, hb] at h
      simp at h
    | ok s2 =>
      rw [h1, hb] at h
      simp at h
      subst h
      refine ⟨s2 ++ PG.setRoleConnLimitStmts d ++
        PG.setBoolAttrStmts d.createDatabase d.newName "CREATEDB" "NOCREATEDB" ++
        PG.setBoolAttrStmts d.createRole d.newName "CREATEROLE" "NOCREATEROLE" ++
        PG.setBoolAttrStmts d.inherit d.newName "INHERIT" "NOINHERIT" ++
        PG.setBoolAttrStmts d.login d.newName "LOGIN" "NOLOGIN" ++
        PG.setBoolAttrStmts d.replication d.newName "REPLICATION" "NOREPLICATION" ++
        PG.setBoolAttrStmts d.superuser d.newName "SUPERUSER" "NOSUPERUSER" ++
        PG.setRoleValidUntilStmts d ++
        PG.revokeRoles d.currentRoles d.newName ++
        PG.grantRoles d.desiredRoles d.newName, by simp, ?_⟩
      intro s hs
      simp only [List.append_assoc, List.mem_append] at hs
      rcases hs with hs | hs | hs | hs | hs | hs | hs | hs | hs | hs | hs
      · exact PG.setRoleBypassRLSStmts_target d s2 hb s hs
      · exact PG.mem_setRoleConnLimitStmts_target d s hs
      · exact PG.mem_setBoolAttrStmts_target _ _ _ _ s hs
      · exact PG.mem_setBoolAttrStmts_target _ _ _ _ s hs
      · exact PG.mem_setBoolAttrStmts_target _ _ _ _ s hs
      · exact PG.mem_setBoolAttrStmts_target _ _ _ _ s hs
      · exact PG.mem_setBoolAttrStmts_target _ _ _ _ s hs
      · exact PG.mem_setBoolAttrStmts_target _ _ _ _ s hs
      · exact PG.mem_setRoleValidUntilStmts_target d s hs
      · exact PG.mem_revokeRoles_target _ _ s hs
      · exact PG.mem_grantRoles_target _ _ s hs

/-- C5 witness: a concrete update changing both the name and the connection
limit, instantiating the theorem. -/
theorem role_update_rename_first_witness :
    ∃ rest,
      [PG.RoleStmt.rename "old" "new",
       PG.RoleStmt.alter "new" ("CONNECTION LIMIT " ++ toString (5 : Int))] =
        PG.RoleStmt.rename "old" "new" :: rest ∧
      ∀ s ∈ rest, PG.stmtTarget s = "new" :=
  role_update_rename_first PG.sampleUpdateData
    [PG.RoleStmt.rename "old" "new",
     PG.RoleStmt.alter "new" ("CONNECTION LIMIT " ++ toString (5 : Int))]
    (by decide) rfl

/-- C6: `validatePrivileges(objectType, privileges)` succeeds iff the object
type is "table" or "sequence" and every privilege is in that type's
allow-list; any other object type yields the "unknown object type" error, and
a disallowed privilege never yields success (it yields a validation error),
in both cases purely from the inputs, before any statement is built. -/
theorem validatePrivileges_allow_list (objectType : String) (privileges : List String) :
    (PG.validatePrivileges objectType privileges = Except.ok () ↔
      ((objectType = "table" ∨ objectType = "sequence") ∧
        ∀ p ∈ privileges, p ∈ (PG.allowedPrivileges objectType).getD [])) ∧
    (objectType ≠ "table" → objectType ≠ "sequence" →
      PG.validatePrivileges objectType privileges =
        Except.error ("unknown object type " ++ objectType)) ∧
    (∀ p ∈ privileges, p ∉ (PG.allowedPrivileges objectType).getD [] →
      PG.validatePrivileges objectType privileges ≠ Except.ok ()) := by
  refine ⟨?_, ?_, ?_⟩
  · by_cases ht : objectType = "table"
    · subst ht
      simp [PG.validatePrivileges, PG.allowedPrivileges, PG.checkAllowed_ok_iff]
    · by_cases hs : objectType = "sequence"
      · subst hs
        simp [PG.validatePrivileges, PG.allowedPrivileges, PG.checkAllowed_ok_iff]
      · simp [PG.validatePrivileges, PG.allowedPrivileges, ht, hs]
  · intro ht hs
    simp [PG.validatePrivileges, PG.allowedPrivileges, ht, hs]
  · intro p hp hnot hok
    by_cases ht : objectType = "table"
    · subst ht
      simp [PG.validatePrivileges, PG.allowedPrivileges, PG.checkAllowed_ok_iff] at hok
      exact hnot (by simpa [PG.allowedPrivileges] using hok p hp)
    · by_cases hs : objectType = "sequence"
      · subst hs
        simp [PG.validatePrivileges, PG.allowedPrivileges, PG.checkAllowed_ok_iff] at hok
        exact hnot (by simpa [PG.allowedPrivileges] using hok p hp)
      · simp [PG.validatePrivileges, PG.allowedPrivileges, ht, hs] at hok

/-- C6 witness: the spec's three examples, obtained from the theorem at
concrete inputs. -/
theorem validatePrivileges_allow_list_witness :
    PG.validatePrivileges "table" ["SELECT", "TRUNCATE"] = Except.ok () ∧
    PG.validatePrivileges "view" ["SELECT"] =
      Except.error ("unknown object type " ++ "view") ∧
    PG.validatePrivileges "sequence" ["TRUNCATE"] ≠ Except.ok () := by
  refine ⟨?_, ?_, ?_⟩
  · exact (validatePrivileges_allow_list "table" ["SELECT", "TRUNCATE"]).1.mpr
      ⟨Or.inl rfl, by decide⟩
  · exact (validatePrivileges_allow_list "view" ["SELECT"]).2.1
      (by decide) (by decide)
  · exact (validatePrivileges_allow_list "sequence" ["TRUNCATE"]).2.2
      "TRUNCATE" (by decide) (by decide)

/-- C7: role deletion emits reassign-ownership, then drop-owned, then
drop-role; skip_reassign_owned omits the first two and skip_drop_role omits
the last. -/
theorem role_delete_stmt_order (r u : String) (skipR skipD featCU : Bool) :
    (skipR = false → skipD = false →
      PG.deleteRoleQueries r skipR skipD featCU u =
        [(if featCU then "REASSIGN OWNED BY " ++ (PG.quoteIdentifier r ++ " TO CURRENT_USER")
          else "REASSIGN OWNED BY " ++
            (PG.quoteIdentifier r ++ (" TO " ++ PG.quoteIdentifier u))),
         "DROP OWNED BY " ++ PG.quoteIdentifier r,
         "DROP ROLE " ++ PG.quoteIdentifier r]) ∧
    (skipR = true →
      ("DROP OWNED BY " ++ PG.quoteIdentifier r)
          ∉ PG.deleteRoleQueries r skipR skipD featCU u ∧
      ("REASSIGN OWNED BY " ++ (PG.quoteIdentifier r ++ " TO CURRENT_USER"))
          ∉ PG.deleteRoleQueries r skipR skipD featCU u ∧
      ("REASSIGN OWNED BY " ++ (PG.quoteIdentifier r ++ (" TO " ++ PG.quoteIdentifier u)))
          ∉ PG.deleteRoleQueries r skipR skipD featCU u) ∧
    (skipD = true →
      ("DROP ROLE " ++ PG.quoteIdentifier r)
          ∉ PG.deleteRoleQueries r skipR skipD featCU u) := by
  have hDownDrp : ("DROP OWNED BY " ++ PG.quoteIdentifier r)
      ≠ ("DROP ROLE " ++ PG.quoteIdentifier r) := by
    apply PG.ne_of_get_ne _ _ 5
    rw [PG.get_of_append "DROP OWNED BY " _ 5 'O' (by decide) (by decide),
        PG.get_of_append "DROP ROLE " _ 5 'R' (by decide) (by decide)]
    decide
  have hRcuDrp : ("REASSIGN OWNED BY " ++ (PG.quoteIdentifier r ++ " TO CURRENT_USER"))
      ≠ ("DROP ROLE " ++ PG.quoteIdentifier r) := by
    apply PG.ne_of_get_ne _ _ 0
    rw [PG.get_of_append "REASSIGN OWNED BY " _ 0 'R' (by decide) (by decide),
        PG.get_of_append "DROP ROLE " _ 0 'D' (by decide) (by decide)]
    decide
  have hRuDrp : ("REASSIGN OWNED BY " ++ (PG.quoteIdentifier r ++ (" TO " ++ PG.quoteIdentifier u)))
      ≠ ("DROP ROLE " ++ PG.quoteIdentifier r) := by
    apply PG.ne_of_get_ne _ _ 0
    rw [PG.get_of_append "REASSIGN OWNED BY " _ 0 'R' (by decide) (by decide),
        PG.get_of_append "DROP ROLE " _ 0 'D' (by decide) (by decide)]
    decide
  have hDrpRcu := Ne.symm hRcuDrp
  have hDrpRu := Ne.symm hRuDrp
  have hDrpDown := Ne.symm hDownDrp
  cases skipR with
  | false =>
    cases skipD with
    | false =>
      refine ⟨fun _ _ => ?_, fun h => by simp at h, fun h => by simp at h⟩
      simp [PG.deleteRoleQueries]
    | true =>
      refine ⟨fun _ h => by simp at h, fun h => by simp at h, fun _ => ?_⟩
      simp [PG.deleteRoleQueries]
      cases featCU with
      | false => exact ⟨hDrpRu, hDrpDown⟩
      | true => exact ⟨hDrpRcu, hDrpDown⟩
  | true =>
    cases skipD with
    | false =>
      refine ⟨fun h _ => by simp at h, fun _ => ?_, fun h => by simp at h⟩
      simp [PG.deleteRoleQueries]
      exact ⟨hDownDrp, hRcuDrp, hRuDrp⟩
    | true =>
      refine ⟨fun h _ => by simp at h, fun _ => ?_, fun _ => ?_⟩
      · simp [PG.deleteRoleQueries]
      · simp [PG.deleteRoleQueries]

/-- C7 witness: the theorem at concrete flag values, in particular the full
three-statement order with neither skip flag set. -/
theorem role_delete_stmt_order_witness :
    PG.deleteRoleQueries "r" false false true "u" =
      [(if true then "REASSIGN OWNED BY " ++ (PG.quoteIdentifier "r" ++ " TO CURRENT_USER")
        else "REASSIGN OWNED BY " ++
          (PG.quoteIdentifier "r" ++ (" TO " ++ PG.quoteIdentifier "u"))),
       "DROP OWNED BY " ++ PG.quoteIdentifier "r",
       "DROP ROLE " ++ PG.quoteIdentifier "r"] ∧
    ("DROP OWNED BY " ++ PG.quoteIdentifier "r")
        ∉ PG.deleteRoleQueries "r" true false true "u" ∧
    ("DROP ROLE " ++ PG.quoteIdentifier "r")
        ∉ PG.deleteRoleQueries "r" false true true "u" :=
  ⟨(role_delete_stmt_order "r" "u" false false true).1 rfl rfl,
   ((role_delete_stmt_order "r" "u" true false true).2.1 rfl).1,
   (role_delete_stmt_order "r" "u" false true true).2.2 rfl⟩

/-- C8: with both skip_drop_role and skip_reassign_owned set, a role Delete
executes zero statements, issues no commit, still clears the resource
identity, and returns without error. -/
theorem role_delete_skip_both_no_statements (r u : String) (featCU : Bool)
    (ex : String → Except String Unit) (commitResult : Except String Unit) :
    (PG.resourcePostgreSQLRoleDelete r true true featCU u ex commitResult).executed = [] ∧
    (PG.resourcePostgreSQLRoleDelete r true true featCU u ex commitResult).committed = false ∧
    (PG.resourcePostgreSQLRoleDelete r true true featCU u ex commitResult).clearedId = true ∧
    (PG.resourcePostgreSQLRoleDelete r true true featCU u ex commitResult).result =
      Except.ok () := by
  unfold PG.resourcePostgreSQLRoleDelete PG.deleteRoleQueries
  simp

/-- C9: every existence probe maps a zero-row catalog query to (false, nil)
and a query error to (false, err): the successful "absent" answer coincides
exactly with the no-rows outcome, and an error answer exists exactly for a
failed query; for the extension probe, the error-free absent answer
coincides with "database absent or extension row absent". -/
theorem exists_probes_norows_vs_error (q dbq extq : PG.QueryResult) :
    (PG.dbExists q = (false, none) ↔ q = PG.QueryResult.noRows) ∧
    ((PG.dbExists q).2.isSome ↔ ∃ e, q = PG.QueryResult.fail e) ∧
    (PG.roleExists q = (false, none) ↔ q = PG.QueryResult.noRows) ∧
    ((PG.roleExists q).2.isSome ↔ ∃ e, q = PG.QueryResult.fail e) ∧
    (PG.schemaExists q = (false, none) ↔ q = PG.QueryResult.noRows) ∧
    ((PG.schemaExists q).2.isSome ↔ ∃ e, q = PG.QueryResult.fail e) ∧
    (PG.resourcePostgreSQLRoleExists q = (false, none) ↔ q = PG.QueryResult.noRows) ∧
    ((PG.resourcePostgreSQLRoleExists q).2.isSome ↔ ∃ e, q = PG.QueryResult.fail e) ∧
    (PG.resourcePostgreSQLExtensionExists none dbq (Except.ok ()) extq = (false, none) ↔
      (dbq = PG.QueryResult.noRows ∨
        ((∃ s, dbq = PG.QueryResult.row s) ∧ extq = PG.QueryResult.noRows))) ∧
    (∀ s e, dbq = PG.QueryResult.row s → extq = PG.QueryResult.fail e →
      PG.resourcePostgreSQLExtensionExists none dbq (Except.ok ()) extq =
        (false, some e)) := by
  refine ⟨?_, ?_, ?_, ?_, ?_, ?_, ?_, ?_, ?_, ?_⟩
  · cases q <;> simp [PG.dbExists]
  · cases q <;> simp [PG.dbExists]
  · cases q <;> simp [PG.roleExists]
  · cases q <;> simp [PG.roleExists]
  · cases q <;> simp [PG.schemaExists]
  · cases q <;> simp [PG.schemaExists]
  · cases q <;> simp [PG.resourcePostgreSQLRoleExists]
  · cases q <;> simp [PG.resourcePostgreSQLRoleExists]
  · cases dbq <;> cases extq <;>
      simp [PG.resourcePostgreSQLExtensionExists, PG.dbExists]
  · intro s e hdb hext
    subst hdb
    subst hext
    rfl

/-- C9 witness: the theorem at concrete query outcomes. -/
theorem exists_probes_norows_vs_error_witness :
    PG.dbExists PG.QueryResult.noRows = (false, none) ∧
    (PG.dbExists (PG.QueryResult.fail "boom")).2.isSome ∧
    PG.resourcePostgreSQLExtensionExists none (PG.QueryResult.row "db")
        (Except.ok ()) (PG.QueryResult.fail "boom") = (false, some "boom") :=
  ⟨(exists_probes_norows_vs_error PG.QueryResult.noRows PG.QueryResult.noRows
      PG.QueryResult.noRows).1.mpr rfl,
   (exists_probes_norows_vs_error (PG.QueryResult.fail "boom") PG.QueryResult.noRows
      PG.QueryResult.noRows).2.1.mpr ⟨"boom", rfl⟩,
   (exists_probes_norows_vs_error PG.QueryResult.noRows (PG.QueryResult.row "db")
      (PG.QueryResult.fail "boom")).2.2.2.2.2.2.2.2.2 "db" "boom" rfl rfl⟩

/-- C10: the extension identity round-trips through `getExtNames` exactly for
hyphen-free components; an identity the program itself generates from a
hyphenated database name splits into three segments and is rejected
at import time with the format error. -/
theorem ext_id_roundtrip (d n : String)
    (hd : ('-' : Char) ∉ d.data) (hn : ('-' : Char) ∉ n.data) :
    PG.getExtNames "" "" (PG.generateExtID d n) = Except.ok (d, n) ∧
    PG.goSplitHyphen (PG.generateExtID "my-db" "ext") = ["my", "db", "ext"] ∧
    PG.getExtNames "" "" (PG.generateExtID "my-db" "ext") =
      Except.error (PG.extIDFormatErr (PG.generateExtID "my-db" "ext")
        ["my", "db", "ext"]) := by
  refine ⟨?_, by decide, rfl⟩
  have hminus : ("-" : String).data = ['-'] := by decide
  have hdata : (PG.generateExtID d n).data = d.data ++ ('-' :: n.data) := by
    unfold PG.generateExtID
    rw [String.data_append, String.data_append, hminus]
    rfl
  unfold PG.getExtNames PG.goSplitHyphen
  rw [hdata, PG.splitHyphen_append d.data n.data hd, PG.splitHyphen_no_hyphen n.data hn]
  simp

/-- C10 witness: a hyphen-free database/extension pair round-trips. -/
theorem ext_id_roundtrip_witness :
    PG.getExtNames "" "" (PG.generateExtID "mydb" "ext") = Except.ok ("mydb", "ext") :=
  (ext_id_roundtrip "mydb" "ext" (by decide) (by decide)).1
